import Mathlib

/-!
Shallow embedding of the domain layer of the `emzola/bugtracker` issue tracker
(Go sources under `src/`), together with theorems settling the specification
claims about it.

Conventions of the embedding:
* Go `int` / `int64` values are modelled as `Int` (no arithmetic in the claims
  comes near the 64-bit boundary, so wrap-around is not modelled).
* Go `time.Time` instants are modelled as `Int` (an instant on a discrete
  timeline); `time.Duration` is an `Int` in nanoseconds, as in Go.
* Go `nil`-able pointers (`*int64`, `*time.Time`, `*string`) are `Option _`.
* Byte slices are `List Nat` with every element a byte value.
* The database is explicit state: a list of rows per table.  SQL statements are
  translated row-by-row into list operations following their `WHERE`/`SET`
  clauses.
* Fallible Go functions return an explicit result type; a Go runtime panic
  (e.g. dereferencing a nil pointer) is a distinguished `goPanic` outcome.
-/

namespace Bugtracker

/-- The error taxonomy of the service/controller layer
(`internal/controller/issuetracker/error.go`, `internal/service/error.go`,
`internal/repository/error.go`). `failedValidation` carries the rendered
message built by `failedValidationErr`. -/
inductive Err where
  | notFound
  | invalidRole
  | notPermitted
  | editConflict
  | duplicateKey
  | activated
  | invalidCredentials
  | failedValidation (msg : String)
deriving DecidableEq, Repr

/-- Outcome of a controller/service operation: a value, a domain error, or a
Go runtime panic (the code contains an unguarded nil-pointer dereference). -/
inductive Res (α : Type) where
  | ok (a : α)
  | err (e : Err)
  | goPanic (msg : String)
deriving DecidableEq, Repr

/-- Modelled from the spec: the `pkg/validator` package implementation is
missing from `src/` (only `pkg/validator/validator_test.go` is present).
Its semantics are fixed by that test file and §4.5 of the spec: a validator
holds a field→message map; `AddError` inserts a message only when the key is
not present yet; `Check` records the message when the condition is false.
The Go map is modelled as an association list with unique keys. -/
structure Validator where
  errors : List (String × String)
deriving DecidableEq, Repr

/-- Go `validator.New()`: an empty validator. -/
def Validator.new : Validator := ⟨[]⟩

/-- Go `Valid()` is true iff no error has been recorded (per `TestValid`). -/
def Validator.valid (v : Validator) : Bool := v.errors.isEmpty

/-- Go `AddError(key, message)`: add only if `key` is absent (per `TestAddError`,
where adding an existing key leaves the count unchanged). -/
def Validator.addError (v : Validator) (key message : String) : Validator :=
  if v.errors.any (fun kv => kv.1 == key) then v
  else ⟨v.errors ++ [(key, message)]⟩

/-- Go `Check(ok, key, message)`: record the error when `ok` is false
(per `TestCheck`). -/
def Validator.check (v : Validator) (ok : Bool) (key message : String) : Validator :=
  if ok then v else v.addError key message

/-- The sorted key list of an error map, as built by `failedValidationErr`
(`internal/service/error.go`: collect the keys, `sort.Strings`). For a linear
order the sorted permutation is unique, so insertion sort models
`sort.Strings` exactly. -/
def sortedKeys (errors : List (String × String)) : List String :=
  (errors.map Prod.fst).insertionSort (· ≤ ·)

/-- The message text that `failedValidationErr` builds: the entries joined by
`"; "` in sorted key order, with a trailing `"."`
(`internal/service/error.go` lines 30-39). -/
def renderValidationErrors (errors : List (String × String)) : String :=
  String.intercalate "; "
    ((sortedKeys errors).map
      (fun key => key ++ ": " ++ ((errors.lookup key).getD ""))) ++ "."

/-- Go `failedValidationErr(errors)` (`internal/service/error.go` lines 20-41):
`nil` for an empty map, otherwise a single validation-failure error holding
every entry of the map in sorted key order. -/
def failedValidationErr (errors : List (String × String)) : Option Err :=
  if errors.isEmpty then none
  else some (.failedValidation (renderValidationErrors errors))

/-- Result metadata of a listing (`model.Metadata`). The type itself is
missing from `src/` (only its users are present); its fields follow §4.3 of
the spec and the call sites `model.CalculateMetadata(totalRecords,
filters.Page, filters.PageSize)`. -/
structure Metadata where
  currentPage : Int := 0
  pageSize : Int := 0
  firstPage : Int := 0
  lastPage : Int := 0
  totalRecords : Int := 0
deriving DecidableEq, Repr

/-- The all-zero `model.Metadata{}` value returned for empty listings. -/
def Metadata.empty : Metadata := {}

/-- Modelled from the spec: `model.CalculateMetadata` is missing from `src/`.
§4.3: "if `totalRecords == 0`, metadata is entirely empty …; otherwise
metadata = {page, pageSize, firstPage=1, lastPage=ceil(totalRecords/pageSize),
totalRecords}". The ceiling division on positive operands is
`(t + s - 1) / s`. -/
def CalculateMetadata (totalRecords page pageSize : Int) : Metadata :=
  if totalRecords == 0 then Metadata.empty
  else
    { currentPage := page
      pageSize := pageSize
      firstPage := 1
      lastPage := (totalRecords + pageSize - 1) / pageSize
      totalRecords := totalRecords }

/-- Go `model.Filters`, with the fields used by the handlers
(e.g. `src/unnamed/part_010` lines 104-107): page, page size, a sort key and
the per-resource sort safelist. The struct definition itself is missing from
`src/`. -/
structure Filters where
  page : Int
  pageSize : Int
  sort : String
  sortSafelist : List String
deriving DecidableEq, Repr

/-- Modelled from the spec: `Filters.Validate` is missing from `src/`.
§4.3: `page` must be ≥ 1, `pageSize` in 1–100, and `sort` must belong to the
resource's safelist; each violation is recorded on the shared validator
(§4.3: failures are aggregated, never fail-fast). -/
def Filters.validate (f : Filters) (v : Validator) : Validator :=
  (((v.check (f.page > 0) "page" "must be greater than zero").check
      (f.pageSize > 0) "page_size" "must be greater than zero").check
      (f.pageSize ≤ 100) "page_size" "must be a maximum of 100").check
      (f.sortSafelist.contains f.sort) "sort" "invalid sort value"

/-- Drop one leading `-` from a sort key (Go `strings.TrimPrefix(sort, "-")`
applied to a safelisted value). -/
def trimDash (s : String) : String :=
  if s.startsWith "-" then s.drop 1 else s

/-- Modelled from the spec: `Filters.SortColumn` is missing from `src/`.
§4.3/§9: the listing query embeds the sort key only when it is in the
safelist — "the listing is never executed with an unchecked sort column".
A safelisted key yields the column name (descending keys lose their `-`);
anything else yields no column at all. -/
def Filters.sortColumn (f : Filters) : Option String :=
  if f.sortSafelist.contains f.sort then some (trimDash f.sort) else none

/-- Go `Filters.Limit()` (§4.3): `limit = pageSize`. -/
def Filters.limit (f : Filters) : Int := f.pageSize

/-- Go `Filters.Offset()` (§4.3): `offset = (page-1) * pageSize`. -/
def Filters.offset (f : Filters) : Int := (f.page - 1) * f.pageSize

/-- Go `model.User` (`src/unnamed/part_030`): only the password hash is kept in
the embedding (`Password.Hash`); the transient plaintext pointer plays no
role in the claims. -/
structure User where
  id : Int
  name : String
  email : String
  passwordHash : List Nat
  activated : Bool
  role : String
  createdOn : Int := 0
  createdBy : String := ""
  modifiedOn : Int := 0
  modifiedBy : String := ""
  version : Int
deriving DecidableEq, Repr

/-- Go `model.Project` (`src/internal/model/projects.go`). -/
structure Project where
  id : Int
  name : String
  description : String
  assignedTo : Option Int
  startDate : Int
  targetEndDate : Int
  actualEndDate : Option Int
  createdOn : Int := 0
  createdBy : String := ""
  modifiedOn : Int := 0
  modifiedBy : String := ""
  version : Int
deriving DecidableEq, Repr

/-- Go `model.Issue` (`src/unnamed/part_029`). -/
structure Issue where
  id : Int
  title : String
  description : String
  reporterId : Int
  reportedDate : Int
  projectId : Int
  assignedTo : Option Int
  status : String
  priority : String
  targetResolutionDate : Int
  progress : String
  actualResolutionDate : Option Int
  resolutionSummary : String
  createdOn : Int := 0
  createdBy : String := ""
  modifiedOn : Int := 0
  modifiedBy : String := ""
  version : Int
deriving DecidableEq, Repr

/-- A persisted token row (`tokens` table, `src/unnamed/part_032`
`InsertToken`): hash, user id, expiry and scope — the plaintext is never
persisted (the `INSERT` has no plaintext column). -/
structure TokenRow where
  hash : List Nat
  userId : Int
  expiry : Int
  scope : String
deriving DecidableEq, Repr

/-- Go `model.Token` (`src/internal/model/tokens.go`): the in-memory token,
carrying the client-visible plaintext alongside the persisted fields. -/
structure Token where
  plaintext : List Nat
  hash : List Nat
  userId : Int
  expiry : Int
  scope : String
deriving DecidableEq, Repr

/-- Go `model.ScopeActivation`. -/
def ScopeActivation : String := "activation"

/-! ### `crypto/sha256` and `encoding/base32`

`generateToken` (`src/unnamed/part_032`) uses Go's standard-library SHA-256
and base32; both are embedded here bit-for-bit (FIPS 180-4 and RFC 4648). -/

/-- Truncate to a 32-bit word. -/
def w32 (n : Nat) : Nat := n % 4294967296

/-- A 32-bit right rotation. -/
def rotr32 (x n : Nat) : Nat := w32 ((x >>> n) ||| (x <<< (32 - n)))

/-- A 32-bit complement. -/
def not32 (x : Nat) : Nat := x ^^^ 0xFFFFFFFF

def ch32 (x y z : Nat) : Nat := (x &&& y) ^^^ (not32 x &&& z)

def maj32 (x y z : Nat) : Nat := (x &&& y) ^^^ (x &&& z) ^^^ (y &&& z)

def bsig0 (x : Nat) : Nat := rotr32 x 2 ^^^ rotr32 x 13 ^^^ rotr32 x 22

def bsig1 (x : Nat) : Nat := rotr32 x 6 ^^^ rotr32 x 11 ^^^ rotr32 x 25

def ssig0 (x : Nat) : Nat := rotr32 x 7 ^^^ rotr32 x 18 ^^^ (x >>> 3)

def ssig1 (x : Nat) : Nat := rotr32 x 17 ^^^ rotr32 x 19 ^^^ (x >>> 10)

/-- The 64 SHA-256 round constants of FIPS 180-4, in decimal. -/
def sha256K : List Nat :=
  [1116352408, 1899447441, 3049323471, 3921009573, 961987163, 1508970993,
   2453635748, 2870763221, 3624381080, 310598401, 607225278, 1426881987,
   1925078388, 2162078206, 2614888103, 3248222580, 3835390401, 4022224774,
   264347078, 604807628, 770255983, 1249150122, 1555081692, 1996064986,
   2554220882, 2821834349, 2952996808, 3210313671, 3336571891, 3584528711,
   113926993, 338241895, 666307205, 773529912, 1294757372, 1396182291,
   1695183700, 1986661051, 2177026350, 2456956037, 2730485921, 2820302411,
   3259730800, 3345764771, 3516065817, 3600352804, 4094571909, 275423344,
   430227734, 506948616, 659060556, 883997877, 958139571, 1322822218,
   1537002063, 1747873779, 1955562222, 2024104815, 2227730452, 2361852424,
   2428436474, 2756734187, 3204031479, 3329325298]

/-- The SHA-256 working state: eight 32-bit words. -/
structure Hash8 where
  a : Nat
  b : Nat
  c : Nat
  d : Nat
  e : Nat
  f : Nat
  g : Nat
  h : Nat
deriving DecidableEq, Repr

/-- The SHA-256 initial hash value of FIPS 180-4, in decimal. -/
def sha256Init : Hash8 :=
  ⟨1779033703, 3144134277, 1013904242, 2773480762,
   1359893119, 2600822924, 528734635, 1541459225⟩

/-- Big-endian bytes of `n`, `k` bytes wide. -/
def toBytesBE (k n : Nat) : List Nat :=
  (List.range k).map (fun i => (n >>> (8 * (k - 1 - i))) % 256)

/-- Group a byte list into big-endian 32-bit words (any trailing fragment of
fewer than 4 bytes is dropped; SHA-256 only ever applies this to 64-byte
blocks). -/
def bytesToWords : List Nat → List Nat
  | b0 :: b1 :: b2 :: b3 :: rest =>
      (b0 * 16777216 + b1 * 65536 + b2 * 256 + b3) :: bytesToWords rest
  | _ => []

/-- Extend 16 message words to the 64-entry SHA-256 message schedule. -/
def sha256Schedule (ws : Array Nat) : Array Nat :=
  (List.range 48).foldl
    (fun arr i =>
      arr.push (w32 (ssig1 (arr.getD (i + 14) 0) + arr.getD (i + 9) 0 +
        ssig0 (arr.getD (i + 1) 0) + arr.getD i 0)))
    ws

/-- One SHA-256 compression round. -/
def sha256Round (s : Hash8) (kw : Nat × Nat) : Hash8 :=
  let t1 := w32 (s.h + bsig1 s.e + ch32 s.e s.f s.g + kw.1 + kw.2)
  let t2 := w32 (bsig0 s.a + maj32 s.a s.b s.c)
  ⟨w32 (t1 + t2), s.a, s.b, s.c, w32 (s.d + t1), s.e, s.f, s.g⟩

/-- Compress one 64-byte block into the running hash. -/
def sha256Block (s : Hash8) (block : List Nat) : Hash8 :=
  let ws := sha256Schedule (bytesToWords block).toArray
  let t := (sha256K.zip ws.toList).foldl sha256Round s
  ⟨w32 (s.a + t.a), w32 (s.b + t.b), w32 (s.c + t.c), w32 (s.d + t.d),
   w32 (s.e + t.e), w32 (s.f + t.f), w32 (s.g + t.g), w32 (s.h + t.h)⟩

/-- SHA-256 padding: append `0x80`, zero bytes up to 56 mod 64, then the
bit length as 8 big-endian bytes. -/
def sha256Pad (msg : List Nat) : List Nat :=
  let l := msg.length
  msg ++ [0x80] ++ List.replicate ((55 + 64 - l % 64) % 64) 0 ++
    toBytesBE 8 ((8 * l) % 18446744073709551616)

/-- Split a byte list into 64-byte blocks. -/
def chunk64 (l : List Nat) : List (List Nat) :=
  if h : l.isEmpty then [] else l.take 64 :: chunk64 (l.drop 64)
termination_by l.length
decreasing_by
  have hne : l ≠ [] := by simpa [List.isEmpty_iff] using h
  have hl : 0 < l.length := List.length_pos.mpr hne
  simp [List.length_drop]; omega

/-- The SHA-256 digest (32 bytes) of a byte message. -/
def sha256 (msg : List Nat) : List Nat :=
  let s := (chunk64 (sha256Pad msg)).foldl sha256Block sha256Init
  toBytesBE 4 s.a ++ toBytesBE 4 s.b ++ toBytesBE 4 s.c ++ toBytesBE 4 s.d ++
    toBytesBE 4 s.e ++ toBytesBE 4 s.f ++ toBytesBE 4 s.g ++ toBytesBE 4 s.h

/-- The bits of one byte, most significant first. -/
def byteToBits (b : Nat) : List Bool :=
  (List.range 8).map (fun i => b.testBit (7 - i))

/-- Value of a bit string read most-significant-first. -/
def bitsToNat (bits : List Bool) : Nat :=
  bits.foldl (fun acc bit => 2 * acc + (if bit then 1 else 0)) 0

/-- Split a bit string into 5-bit groups, zero-padding the final group —
the RFC 4648 base32 grouping used by `encoding/base32`. -/
def quintets (bits : List Bool) : List Nat :=
  if h : bits.isEmpty then []
  else
    bitsToNat (bits.take 5 ++ List.replicate (5 - (bits.take 5).length) false) ::
      quintets (bits.drop 5)
termination_by bits.length
decreasing_by
  have hne : bits ≠ [] := by simpa [List.isEmpty_iff] using h
  have hl : 0 < bits.length := List.length_pos.mpr hne
  simp [List.length_drop]; omega

/-- The RFC 4648 standard base32 alphabet `A…Z2…7`, as byte values. -/
def base32Alphabet : List Nat :=
  (List.range 26).map (· + 65) ++ (List.range 6).map (· + 50)

/-- Go `base32.StdEncoding.WithPadding(base32.NoPadding).EncodeToString`:
the 5-bit groups of the input bytes mapped through the standard alphabet,
with no padding characters. -/
def base32NoPad (bs : List Nat) : List Nat :=
  (quintets (bs.flatMap byteToBits)).map (fun q => base32Alphabet.getD q 0)

/-! ### Entity validation (`model.Project.Validate`, `model.Issue.Validate`)

Go `len(s)` counts bytes, hence `String.utf8ByteSize`; `time.Time.IsZero`
becomes `= 0` and `a.Before b` / `a.After b` become `<` / `>` on the
instant. -/

/-- Go `Project.Validate` (`src/internal/model/projects.go` lines 26-38). -/
def Project.validate (p : Project) (v : Validator) : Validator :=
  let v := v.check (p.name != "") "name" "must be provided"
  let v := v.check (decide (5 ≤ p.name.utf8ByteSize)) "name" "must not be less than 5 bytes long"
  let v := v.check (decide (p.name.utf8ByteSize ≤ 500)) "name" "must not be more than 500 bytes long"
  let v := v.check (decide (5 ≤ p.description.utf8ByteSize)) "description"
    "must not be less than 5 bytes long"
  let v := v.check (decide (p.description.utf8ByteSize ≤ 5000)) "description"
    "must not be more than 5000 bytes long"
  let v := v.check (p.startDate != 0) "start date" "must be provided"
  let v := v.check (p.targetEndDate != 0) "target end date" "must be provided"
  let v := v.check (decide (p.startDate < p.targetEndDate)) "target end date"
    "must not be before start date"
  match p.actualEndDate with
  | none => v
  | some ae => v.check (decide (p.startDate < ae)) "actual end date"
      "must not be before start date"

/-- Go `Issue.Validate` (`src/unnamed/part_029` lines 46-68); the `"iitle"` key
is a typo in the source, kept as-is. -/
def Issue.validate (i : Issue) (v : Validator) : Validator :=
  let v := v.check (i.title != "") "title" "must be provided"
  let v := v.check (decide (5 ≤ i.title.utf8ByteSize)) "title" "must not be less than 5 bytes"
  let v := v.check (decide (i.title.utf8ByteSize ≤ 500)) "iitle" "must not be more than 500 bytes"
  let v := v.check (decide (5 ≤ i.description.utf8ByteSize)) "description"
    "must not be less than 5 bytes long"
  let v := v.check (decide (i.description.utf8ByteSize ≤ 5000)) "description"
    "must not be more than 5000 bytes long"
  let v := if i.reportedDate != 0 then
      v.check (i.reportedDate != 0) "reported date" "must be provided"
    else v
  let v := v.check (i.targetResolutionDate != 0) "target resolution date" "must be provided"
  let v := v.check (decide (i.reportedDate < i.targetResolutionDate)) "target resolution date"
    "must not be before reported date"
  let v := if i.progress != "" then
      (v.check (decide (5 ≤ i.progress.utf8ByteSize)) "progress"
        "must not be less than 5 bytes long").check
        (decide (i.progress.utf8ByteSize ≤ 1000)) "progress"
        "must not be more than 1000 bytes long"
    else v
  let v := if i.resolutionSummary != "" then
      (v.check (decide (5 ≤ i.resolutionSummary.utf8ByteSize)) "resolution summary"
        "must not be less than 5 bytes long").check
        (decide (i.resolutionSummary.utf8ByteSize ≤ 1000)) "resolution summary"
        "must not be more than 1000 bytes long"
    else v
  match i.actualResolutionDate with
  | none => v
  | some ar => v.check (decide (i.reportedDate < ar)) "actual resolution date"
      "must not be before reported date"

/-! ### Repository layer (`internal/repository/postgres`)

Each table is a list of rows; the SQL statements are translated clause by
clause.  A repository call returns its result together with the table state
after the call. -/

/-- Go `GetProject` (`src/internal/repository/postgres/projects.go` lines
34-68): reject ids below 1, otherwise look the row up; a miss is
`ErrNotFound`. -/
def getProjectRepo (projects : List Project) (id : Int) : Except Err Project :=
  if id < 1 then .error .notFound
  else
    match projects.find? (fun r => r.id == id) with
    | none => .error .notFound
    | some r => .ok r

/-- Go `GetUserByID` (`src/unnamed/part_036` lines 70-100). -/
def getUserByIdRepo (users : List User) (id : Int) : Except Err User :=
  match users.find? (fun r => r.id == id) with
  | none => .error .notFound
  | some r => .ok r

/-- Go `GetIssue` (`src/internal/repository/postgres/issues.go` lines 32-...). -/
def getIssueRepo (issues : List Issue) (id : Int) : Except Err Issue :=
  if id < 1 then .error .notFound
  else
    match issues.find? (fun r => r.id == id) with
    | none => .error .notFound
    | some r => .ok r

/-- Go `GetProjectUser` (`src/internal/repository/postgres/projects.go` lines
222-255): the user joined through `projects_users` for the given project and
user id; a miss (no such user, or not a member of that project) is
`ErrNotFound`.  `memberships` is the `projects_users` table as
(projectID, userID) pairs. -/
def getProjectUserRepo (users : List User) (projects : List Project)
    (memberships : List (Int × Int)) (projectId userId : Int) : Except Err User :=
  match users.find? (fun u =>
      u.id == userId &&
      memberships.any (fun m => m.1 == projectId && m.2 == u.id) &&
      projects.any (fun p => p.id == projectId)) with
  | none => .error .notFound
  | some u => .ok u

/-- Go `UpdateProject` (`src/internal/repository/postgres/projects.go` lines
124-143): `UPDATE … WHERE id = $8 AND version = $9 … version = version + 1
RETURNING modified_on, version`.  When no row matches (version drift or the
row vanished) the scan sees `sql.ErrNoRows`, reported as `EditConflict`; the
table is untouched.  On success the caller's struct comes back with the new
`modifiedOn`/`version`.  `projectUpdateRow` is the per-row effect of the
`SET` clause on a matching row. -/
def projectUpdateRow (p : Project) (now : Int) (r : Project) : Project :=
  if r.id == p.id && r.version == p.version then
    { r with
        name := p.name, description := p.description, assignedTo := p.assignedTo,
        startDate := p.startDate, targetEndDate := p.targetEndDate,
        actualEndDate := p.actualEndDate, modifiedBy := p.modifiedBy,
        modifiedOn := now, version := r.version + 1 }
  else r

def updateProjectRepo (projects : List Project) (p : Project) (now : Int) :
    Except Err Project × List Project :=
  if projects.any (fun r => r.id == p.id && r.version == p.version) then
    (.ok { p with modifiedOn := now, version := p.version + 1 },
     projects.map (projectUpdateRow p now))
  else (.error .editConflict, projects)

/-- The per-row effect of the `UPDATE users … SET` clause. -/
def userUpdateRow (u : User) (modifiedBy : String) (r : User) : User :=
  if r.id == u.id && r.version == u.version then
    { r with
        name := u.name, email := u.email, passwordHash := u.passwordHash,
        activated := u.activated, role := u.role, modifiedBy := modifiedBy,
        version := r.version + 1 }
  else r

/-- Go `UpdateUser` (`src/internal/repository/postgres/users.go` lines 69-90):
same optimistic-concurrency shape (`WHERE id = $7 AND version = $8`,
`version = version + 1`, `RETURNING version`), and a unique-violation on
`users_email_key` surfaces as `DuplicateKey`. -/
def updateUserRepo (users : List User) (u : User) (modifiedBy : String) :
    Except Err User × List User :=
  if users.any (fun r => r.id == u.id && r.version == u.version) then
    if users.any (fun r => r.id != u.id && r.email == u.email) then
      (.error .duplicateKey, users)
    else
      (.ok { u with version := u.version + 1 },
       users.map (userUpdateRow u modifiedBy))
  else (.error .editConflict, users)

/-- The per-row effect of the `UPDATE issues … SET` clause. -/
def issueUpdateRow (i : Issue) (now : Int) (r : Issue) : Issue :=
  if r.id == i.id && r.version == i.version then
    { r with
        title := i.title, description := i.description, assignedTo := i.assignedTo,
        status := i.status, priority := i.priority,
        targetResolutionDate := i.targetResolutionDate, progress := i.progress,
        actualResolutionDate := i.actualResolutionDate,
        resolutionSummary := i.resolutionSummary, modifiedBy := i.modifiedBy,
        modifiedOn := now, version := r.version + 1 }
  else r

/-- Go `UpdateIssue` (`src/internal/repository/postgres/issues.go` lines
134-153). -/
def updateIssueRepo (issues : List Issue) (i : Issue) (now : Int) :
    Except Err Issue × List Issue :=
  if issues.any (fun r => r.id == i.id && r.version == i.version) then
    (.ok { i with modifiedOn := now, version := i.version + 1 },
     issues.map (issueUpdateRow i now))
  else (.error .editConflict, issues)

/-- Go `CreateProject` (`src/internal/repository/postgres/projects.go` lines
14-32): `INSERT` returning the generated id, timestamps and initial version;
a unique-violation on `projects_name_key` is `DuplicateKey`.  `freshId` is
the id the sequence hands out. -/
def createProjectRepo (projects : List Project) (p : Project) (now freshId : Int) :
    Except Err Project × List Project :=
  if projects.any (fun r => r.name == p.name) then (.error .duplicateKey, projects)
  else
    let created := { p with id := freshId, createdOn := now, modifiedOn := now, version := 1 }
    (.ok created, projects ++ [created])

/-! ### Token repository (`src/unnamed/part_032`,
`src/internal/repository/postgres/users.go`) -/

/-- One Go `time.Hour` in nanoseconds. -/
def goHour : Int := 3600000000000

/-- Render token bytes as the Go string handed to callers and templates. -/
def bytesToString (bs : List Nat) : String := String.mk (bs.map Char.ofNat)

/-- Go `generateToken(userID, ttl, scope)` (`src/unnamed/part_032` lines
29-44): 16 random bytes, base32-encoded with no padding, become the
plaintext; the SHA-256 hash of the plaintext, the user id, `now + ttl` and
the scope fill the rest.  The random bytes and the clock are explicit
arguments. -/
def generateToken (userID ttl : Int) (scope : String) (now : Int)
    (randomBytes : List Nat) : Token :=
  let plaintext := base32NoPad randomBytes
  { plaintext := plaintext
    hash := sha256 plaintext
    userId := userID
    expiry := now + ttl
    scope := scope }

/-- Go `InsertToken` (`src/unnamed/part_032` lines 47-62): persists hash,
user id, expiry and scope — the row has no plaintext column. -/
def insertToken (tokens : List TokenRow) (t : Token) : List TokenRow :=
  tokens ++ [⟨t.hash, t.userId, t.expiry, t.scope⟩]

/-- Go `CreateToken` (`src/unnamed/part_032` lines 16-26): generate then
insert, returning the in-memory token (with plaintext) to the caller. -/
def createTokenRepo (tokens : List TokenRow) (userID ttl : Int) (scope : String)
    (now : Int) (randomBytes : List Nat) : Token × List TokenRow :=
  let t := generateToken userID ttl scope now randomBytes
  (t, insertToken tokens t)

/-- Go `DeleteAllTokensForUser` (`src/unnamed/part_032` lines 65-79). -/
def deleteAllTokensForUserRepo (tokens : List TokenRow) (scope : String)
    (userId : Int) : List TokenRow :=
  tokens.filter (fun t => !(t.scope == scope && t.userId == userId))

/-- Go `GetUserForToken` (`src/internal/repository/postgres/users.go` lines
92-129): hash the submitted plaintext, join `tokens` to `users` on
`hash = $1 AND scope = $2 AND expiry > $3`; no row is `ErrNotFound`. -/
def getUserForTokenRepo (users : List User) (tokens : List TokenRow)
    (tokenScope : String) (tokenPlaintext : List Nat) (now : Int) : Except Err User :=
  let tokenHash := sha256 tokenPlaintext
  match (tokens.filter (fun t =>
      t.hash == tokenHash && t.scope == tokenScope && now < t.expiry)).filterMap
      (fun t => users.find? (fun u => u.id == t.userId)) with
  | [] => .error .notFound
  | u :: _ => .ok u

/-- Go `ValidateTokenPlaintext` (`src/internal/model/tokens.go` lines
24-27): non-empty and exactly 26 bytes. -/
def validateTokenPlaintext (v : Validator) (tokenPlaintext : List Nat) : Validator :=
  (v.check (!tokenPlaintext.isEmpty) "token" "must be provided").check
    (tokenPlaintext.length == 26) "token" "must be 26 bytes long"

/-! ### Application state and notification record -/

/-- A scheduled notification (recipient, template file, data map) — the
argument triple of `SendEmail`. -/
structure EmailNote where
  recipient : String
  template : String
  data : List (String × String)
deriving DecidableEq, Repr

/-- The world the controller/service operations act on: one list per table
plus the queue of scheduled notifications. -/
structure AppState where
  users : List User
  projects : List Project
  issues : List Issue
  memberships : List (Int × Int)
  tokens : List TokenRow
  emails : List EmailNote
deriving DecidableEq, Repr

/-- The rendered single validation-failure error value
(what `failedValidationErr` wraps when the map is non-empty). -/
def failedValidationE (errors : List (String × String)) : Err :=
  .failedValidation (renderValidationErrors errors)

/-! ### Controller: projects (`internal/controller/issuetracker/projects.go`) -/

/-- Tail of Go `CreateProject` after the assignment-eligibility check
(lines 66-89): validate, insert (duplicate name becomes a validation failure
keyed `name`), then schedule the assignment notification when an assignee
was attached. -/
def createProjectFinish (st : AppState) (project : Project) (emailTo : Option User)
    (now freshId : Int) : Res Project × AppState :=
  let v := project.validate Validator.new
  if !v.valid then (.err (failedValidationE v.errors), st)
  else
    match createProjectRepo st.projects project now freshId with
    | (.error .duplicateKey, _) =>
        (.err (failedValidationE
          (v.addError "name" "a project with this name already exists").errors), st)
    | (.error e, _) => (.err e, st)
    | (.ok created, projects2) =>
        let st2 := { st with projects := projects2 }
        match emailTo with
        | some assignee =>
            (.ok created, { st2 with emails := st2.emails ++
              [⟨assignee.email, "project_assign.tmpl",
                [("name", assignee.name), ("projectID", toString created.id),
                 ("projectName", created.name)]⟩] })
        | none => (.ok created, st2)

/-- Go `CreateProject` (`internal/controller/issuetracker/projects.go` lines
24-90).  Optional dates stand for the already-parsed date strings (an empty
string is `none`); the claims do not touch the parse-failure path.  Projects
may only be assigned to a user with role `"lead"`: the candidate is fetched
first; a missing candidate is `NotFound`, a role mismatch `InvalidRole`, and
in both cases nothing has been persisted yet. -/
def createProject (st : AppState) (name description : String) (assignedTo : Option Int)
    (startDate targetEndDate : Option Int) (createdBy modifiedBy : String)
    (now freshId : Int) : Res Project × AppState :=
  let project : Project :=
    { id := 0, name := name, description := description, assignedTo := none
      startDate := startDate.getD 0, targetEndDate := targetEndDate.getD 0
      actualEndDate := none, createdBy := createdBy, modifiedBy := modifiedBy
      version := 0 }
  match assignedTo with
  | none => createProjectFinish st project none now freshId
  | some uid =>
      match getUserByIdRepo st.users uid with
      | .error e => (.err e, st)
      | .ok assignee =>
          if assignee.role != "lead" then (.err .invalidRole, st)
          else
            createProjectFinish st { project with assignedTo := some assignee.id }
              (some assignee) now freshId

/-- Tail of Go `UpdateProject` after the ownership guard (lines 151-221):
apply the requested field deltas, run the manager-only assignment block,
validate, submit to the optimistic-concurrency store, schedule the
notification. -/
def updateProjectApply (st : AppState) (project0 : Project)
    (name description : Option String) (assignedTo : Option Int)
    (startDate targetEndDate actualEndDate : Option Int) (user : User)
    (now : Int) : Res Project × AppState :=
  let p1 : Project :=
    { project0 with
        name := name.getD project0.name
        description := description.getD project0.description
        startDate := startDate.getD project0.startDate
        targetEndDate := targetEndDate.getD project0.targetEndDate
        actualEndDate :=
          match actualEndDate with
          | some ae => some ae
          | none => project0.actualEndDate
        modifiedBy := user.modifiedBy }
  let assignStep : Except Err (Project × Option User) :=
    match assignedTo with
    | some uid =>
        if user.role == "manager" then
          match getUserByIdRepo st.users uid with
          | .error e => .error e
          | .ok assignee =>
              if assignee.role != "lead" then .error .invalidRole
              else .ok ({ p1 with assignedTo := some assignee.id }, some assignee)
        else .ok (p1, none)
    | none => .ok (p1, none)
  match assignStep with
  | .error e => (.err e, st)
  | .ok (p2, emailTo) =>
      let v := p2.validate Validator.new
      if !v.valid then (.err (failedValidationE v.errors), st)
      else
        match updateProjectRepo st.projects p2 now with
        | (.error e, _) => (.err e, st)
        | (.ok updated, projects2) =>
            let st2 := { st with projects := projects2 }
            match emailTo with
            | some assignee =>
                (.ok updated, { st2 with emails := st2.emails ++
                  [⟨assignee.email, "project_assign.tmpl",
                    [("name", assignee.name), ("projectID", toString updated.id),
                     ("projectName", updated.name)]⟩] })
            | none => (.ok updated, st2)

/-- Go `UpdateProject` (`internal/controller/issuetracker/projects.go` lines
136-222).  After fetching the project, the guard `user.Role == "lead" &&
*project.AssignedTo != user.ID` runs — `&&` short-circuits, so the
`AssignedTo` pointer is dereferenced exactly when the actor's role is
`"lead"`, and a nil pointer there is a runtime panic. -/
def updateProject (st : AppState) (id : Int) (name description : Option String)
    (assignedTo : Option Int) (startDate targetEndDate actualEndDate : Option Int)
    (user : User) (now : Int) : Res Project × AppState :=
  match getProjectRepo st.projects id with
  | .error e => (.err e, st)
  | .ok project0 =>
      if user.role == "lead" then
        match project0.assignedTo with
        | none =>
            (.goPanic "runtime error: invalid memory address or nil pointer dereference", st)
        | some aid =>
            if aid != user.id then (.err .notPermitted, st)
            else
              updateProjectApply st project0 name description assignedTo startDate
                targetEndDate actualEndDate user now
      else
        updateProjectApply st project0 name description assignedTo startDate
          targetEndDate actualEndDate user now

/-! ### Service: issues (`internal/service/issues.go`) -/

/-- Tail of Go `UpdateIssue` after the ownership guard (lines 132-210):
title/description deltas, the member-only assignment block (fetch the
candidate through `GetProjectUser`, `NotFound` / `InvalidRole` on failure),
the remaining deltas (an actual resolution date also forces
`status = "closed"`), validation, the optimistic-concurrency store call and
the notification. -/
def updateIssueApply (st : AppState) (issue0 : Issue) (title description : Option String)
    (assignedTo : Option Int) (status priority : Option String)
    (targetResolutionDate : Option Int) (progress : Option String)
    (actualResolutionDate : Option Int) (resolutionSummary : Option String)
    (user : User) (now : Int) : Res Issue × AppState :=
  let i1 : Issue :=
    { issue0 with
        title := title.getD issue0.title
        description := description.getD issue0.description }
  let assignStep : Except Err (Issue × Option User) :=
    match assignedTo with
    | some uid =>
        match getProjectUserRepo st.users st.projects st.memberships issue0.projectId uid with
        | .error e => .error e
        | .ok assignee =>
            if assignee.role != "member" then .error .invalidRole
            else .ok ({ i1 with assignedTo := some assignee.id }, some assignee)
    | none => .ok (i1, none)
  match assignStep with
  | .error e => (.err e, st)
  | .ok (i2, emailTo) =>
      let i3 : Issue :=
        { i2 with
            status := status.getD i2.status
            priority := priority.getD i2.priority
            targetResolutionDate := targetResolutionDate.getD i2.targetResolutionDate
            progress := progress.getD i2.progress }
      let i4 : Issue :=
        match actualResolutionDate with
        | some ar => { i3 with actualResolutionDate := some ar, status := "closed" }
        | none => i3
      let i5 : Issue :=
        { i4 with
            resolutionSummary := resolutionSummary.getD i4.resolutionSummary
            modifiedBy := user.modifiedBy }
      let v := i5.validate Validator.new
      if !v.valid then (.err (failedValidationE v.errors), st)
      else
        match updateIssueRepo st.issues i5 now with
        | (.error e, _) => (.err e, st)
        | (.ok updated, issues2) =>
            let st2 := { st with issues := issues2 }
            match emailTo with
            | some assignee =>
                (.ok updated, { st2 with emails := st2.emails ++
                  [⟨assignee.email, "issue_assign.tmpl",
                    [("name", assignee.name), ("issueID", toString updated.id),
                     ("issueTitle", updated.title),
                     ("issuePriority", updated.priority)]⟩] })
            | none => (.ok updated, st2)

/-- Go `UpdateIssue` (`internal/service/issues.go` lines 117-211).  After
fetching the issue, the guard `user.Role == "member" && *issue.AssignedTo !=
user.ID && issue.ReporterID != user.ID` runs; `&&` short-circuits left to
right, so for a `"member"` actor the `AssignedTo` pointer is dereferenced
before the reporter comparison, and a nil pointer there is a runtime
panic. -/
def updateIssue (st : AppState) (id : Int) (title description : Option String)
    (assignedTo : Option Int) (status priority : Option String)
    (targetResolutionDate : Option Int) (progress : Option String)
    (actualResolutionDate : Option Int) (resolutionSummary : Option String)
    (user : User) (now : Int) : Res Issue × AppState :=
  match getIssueRepo st.issues id with
  | .error e => (.err e, st)
  | .ok issue0 =>
      if user.role == "member" then
        match issue0.assignedTo with
        | none =>
            (.goPanic "runtime error: invalid memory address or nil pointer dereference", st)
        | some aid =>
            if aid != user.id && issue0.reporterId != user.id then (.err .notPermitted, st)
            else
              updateIssueApply st issue0 title description assignedTo status priority
                targetResolutionDate progress actualResolutionDate resolutionSummary user now
      else
        updateIssueApply st issue0 title description assignedTo status priority
          targetResolutionDate progress actualResolutionDate resolutionSummary user now

/-! ### Listing services and their repository queries -/

/-- The shape of an executed listing query: the sort column and direction
spliced into the SQL text, plus limit/offset.  Returned alongside a listing
result to witness exactly which query ran (none ran when validation
failed). -/
structure ListQuery where
  sortColumn : Option String
  limit : Int
  offset : Int
deriving DecidableEq, Repr

/-- Go `GetAllProjects` repository query (`src/unnamed/part_034` lines
93-143): rows matching the `WHERE` filters, with `count(*) OVER()` feeding
`CalculateMetadata`.  `tsMatch` abstracts Postgres full-text matching
(`to_tsvector @@ plainto_tsquery`), a zero date plays the `'0001-01-01'`
sentinel, and ordering of rows (`ORDER BY`) is not modelled — no claim
depends on row order.  `LIMIT`/`OFFSET` use the derived
`filters.Limit()`/`filters.Offset()`. -/
def getAllProjectsRepo (tsMatch : String → String → Bool) (projects : List Project)
    (name : String) (startDate targetEndDate actualEndDate : Int) (createdBy : String)
    (filters : Filters) : (List Project × Metadata) × ListQuery :=
  let matched := projects.filter (fun p =>
    (tsMatch p.name name || name == "") &&
    (p.startDate == startDate || startDate == 0) &&
    (p.targetEndDate == targetEndDate || targetEndDate == 0) &&
    (p.actualEndDate == some actualEndDate || actualEndDate == 0) &&
    (p.createdBy.toLower == createdBy.toLower || createdBy == ""))
  let pageRows := (matched.drop filters.offset.toNat).take filters.limit.toNat
  ((pageRows, CalculateMetadata matched.length filters.page filters.pageSize),
   ⟨filters.sortColumn, filters.limit, filters.offset⟩)

/-- Go `GetAllProjects` service (`internal/service/projects.go` lines
72-101): validate the filters on the shared validator; when invalid, return
the aggregated validation failure and never touch the repository (the
returned query is `none`); otherwise run the repository listing. -/
def getAllProjectsSvc (tsMatch : String → String → Bool) (projects : List Project)
    (name : String) (startDate targetEndDate actualEndDate : Option Int)
    (createdBy : String) (filters : Filters) (v : Validator) :
    Res (List Project × Metadata) × Option ListQuery :=
  let v2 := filters.validate v
  if !v2.valid then (.err (failedValidationE v2.errors), none)
  else
    let (result, query) := getAllProjectsRepo tsMatch projects name (startDate.getD 0)
      (targetEndDate.getD 0) (actualEndDate.getD 0) createdBy filters
    (.ok result, some query)

/-- Go `GetAllIssues` repository query
(`src/internal/repository/postgres/issues.go` lines 74-...), modelled like
the projects listing. -/
def getAllIssuesRepo (tsMatch : String → String → Bool) (issues : List Issue)
    (title : String) (reportedDate projectId assignedTo : Int) (status priority : String)
    (filters : Filters) : (List Issue × Metadata) × ListQuery :=
  let matched := issues.filter (fun i =>
    (tsMatch i.title title || title == "") &&
    (i.reportedDate == reportedDate || reportedDate == 0) &&
    (i.projectId == projectId || projectId == 0) &&
    (i.assignedTo == some assignedTo || assignedTo == 0) &&
    (i.status.toLower == status.toLower || status == "") &&
    (i.priority.toLower == priority.toLower || priority == ""))
  let pageRows := (matched.drop filters.offset.toNat).take filters.limit.toNat
  ((pageRows, CalculateMetadata matched.length filters.page filters.pageSize),
   ⟨filters.sortColumn, filters.limit, filters.offset⟩)

/-- Go `GetAllIssues` service (`internal/service/issues.go` lines 98-115):
same validation gate as the projects listing. -/
def getAllIssuesSvc (tsMatch : String → String → Bool) (issues : List Issue)
    (title : String) (reportedDate : Option Int) (projectId assignedTo : Int)
    (status priority : String) (filters : Filters) (v : Validator) :
    Res (List Issue × Metadata) × Option ListQuery :=
  let v2 := filters.validate v
  if !v2.valid then (.err (failedValidationE v2.errors), none)
  else
    let (result, query) := getAllIssuesRepo tsMatch issues title (reportedDate.getD 0)
      projectId assignedTo status priority filters
    (.ok result, some query)

/-- The sort safelist the issues handler installs
(`src/unnamed/part_010` line 107). -/
def issuesSortSafelist : List String :=
  ["id", "title", "reported_date", "project_id", "assigned_to", "status", "priority",
   "-id", "-title", "-reported_date", "-project_id", "-assigned_to", "-status", "-priority"]

/-! ### Service: tokens and users -/

/-- Go `GetUserForToken` service (`internal/service/users.go` lines
115-131): a malformed plaintext fails validation outright; a repository miss
(expired, forged, or wrong scope — all collapse to `ErrNotFound`) becomes
the single opaque `token: invalid or expired activation token` validation
failure. -/
def getUserForTokenSvc (users : List User) (tokens : List TokenRow)
    (tokenPlaintext : List Nat) (now : Int) : Res User :=
  let v := validateTokenPlaintext Validator.new tokenPlaintext
  if !v.valid then .err (failedValidationE v.errors)
  else
    match getUserForTokenRepo users tokens ScopeActivation tokenPlaintext now with
    | .error .notFound =>
        .err (failedValidationE
          (v.addError "token" "invalid or expired activation token").errors)
    | .error e => .err e
    | .ok u => .ok u

/-- Go `CreateActivationToken` (`internal/controller/issuetracker/tokens.go`
lines 20-35): an already-activated user gets `ErrActivated` and no token;
otherwise a fresh 3-day activation token is created and its plaintext is
scheduled for delivery. -/
def createActivationToken (st : AppState) (user : User) (now : Int)
    (randomBytes : List Nat) : Res Unit × AppState :=
  if user.activated then (.err .activated, st)
  else
    let (token, tokens2) :=
      createTokenRepo st.tokens user.id (3 * 24 * goHour) ScopeActivation now randomBytes
    (.ok (), { st with
        tokens := tokens2
        emails := st.emails ++
          [⟨user.email, "token_activation.tmpl",
            [("activationToken", bytesToString token.plaintext),
             ("name", user.name)]⟩] })

/-! ### Notification dispatch (`pkg/mailer` `Send`, service `SendEmail`) -/

/-- Go `Mailer.Send`'s delivery loop (`src/pkg/model/project.go` lines
91-100): up to three `DialAndSend` attempts with a fixed 5-second sleep
between them.  `attempt i` is the outcome of the i-th dial (`none` =
success).  The function returns the error value `Send` returns together with
the number of attempts made.  Note the source returns `nil` after the loop
even though its own comment says it returns the final error. -/
def mailerSendLoop (attempt : Nat → Option String) : Option String × Nat :=
  match attempt 1 with
  | none => (none, 1)
  | some _ =>
      match attempt 2 with
      | none => (none, 2)
      | some _ =>
          match attempt 3 with
          | none => (none, 3)
          | some _ => (none, 3)

/-- Go `SendEmail`'s background body (`internal/service/helpers.go` lines
12-25): build a mailer, call `Send`, and log `"Failed to send email"` iff
`Send` returned a non-nil error.  The returned list is what gets logged;
nothing is ever returned to the caller (the body runs in a goroutine). -/
def sendEmailLogs (attempt : Nat → Option String) : List String :=
  match (mailerSendLoop attempt).1 with
  | some _ => ["Failed to send email"]
  | none => []

/-- Run a sequence of `Check` calls against a validator, in order — the shape
of every `Validate` method in the code. -/
def runChecks (v : Validator) (checks : List (Bool × String × String)) : Validator :=
  checks.foldl (fun acc c => acc.check c.1 c.2.1 c.2.2) v

/-- Whether a field name already carries a recorded violation. -/
def Validator.hasKey (v : Validator) (k : String) : Bool :=
  v.errors.any (fun kv => kv.1 == k)

/-! ### Helper lemmas -/

theorem Validator.hasKey_addError (v : Validator) (k m k2 : String)
    (h : v.hasKey k2 = true) : (v.addError k m).hasKey k2 = true := by
  unfold Validator.addError
  split
  · exact h
  · unfold Validator.hasKey at h ⊢
    simp only [List.any_append, List.any_cons, List.any_nil, Bool.or_eq_true] at h ⊢
    exact Or.inl h

theorem Validator.hasKey_check_mono (v : Validator) (ok : Bool) (k m k2 : String)
    (h : v.hasKey k2 = true) : (v.check ok k m).hasKey k2 = true := by
  unfold Validator.check
  split
  · exact h
  · exact v.hasKey_addError k m k2 h

theorem Validator.hasKey_check_self (v : Validator) (k m : String) :
    (v.check false k m).hasKey k = true := by
  unfold Validator.check Validator.addError
  simp only [Bool.false_eq_true, if_false]
  split
  · assumption
  · unfold Validator.hasKey
    simp

theorem runChecks_hasKey_mono (v : Validator) (checks : List (Bool × String × String))
    (k2 : String) (h : v.hasKey k2 = true) : (runChecks v checks).hasKey k2 = true := by
  induction checks generalizing v with
  | nil => exact h
  | cons c rest ih =>
      exact ih (v.check c.1 c.2.1 c.2.2) (v.hasKey_check_mono c.1 c.2.1 c.2.2 k2 h)

theorem runChecks_collects (v : Validator) (checks : List (Bool × String × String)) :
    ∀ c ∈ checks, c.1 = false → (runChecks v checks).hasKey c.2.1 = true := by
  induction checks generalizing v with
  | nil => intro c hc; simp at hc
  | cons hd rest ih =>
      intro c hc hfalse
      rcases List.mem_cons.mp hc with heq | hmem
      · subst heq
        refine runChecks_hasKey_mono _ rest _ ?_
        show (v.check c.1 c.2.1 c.2.2).hasKey c.2.1 = true
        rw [hfalse]
        exact v.hasKey_check_self c.2.1 c.2.2
      · exact ih (v.check hd.1 hd.2.1 hd.2.2) c hmem hfalse

theorem Validator.valid_check (v : Validator) (ok : Bool) (k m : String) :
    (v.check ok k m).valid = (ok && v.valid) := by
  cases ok with
  | true => simp [Validator.check]
  | false =>
      simp only [Validator.check, Bool.false_eq_true, if_false, Bool.false_and]
      unfold Validator.addError
      split
      · next h =>
          obtain ⟨kv, hmem, -⟩ := List.any_eq_true.mp h
          unfold Validator.valid
          cases hv : v.errors with
          | nil => rw [hv] at hmem; simp at hmem
          | cons a t => simp
      · unfold Validator.valid
        simp

/-- Characterize a passing `Filters.Validate`: the incoming validator was
clean and every filter bound holds. -/
theorem Filters.valid_validate (f : Filters) (v : Validator) :
    (f.validate v).valid = true ↔
      (v.valid = true ∧ 0 < f.page ∧ 0 < f.pageSize ∧ f.pageSize ≤ 100 ∧
        f.sortSafelist.contains f.sort = true) := by
  unfold Filters.validate
  rw [Validator.valid_check, Validator.valid_check, Validator.valid_check,
    Validator.valid_check]
  simp only [Bool.and_eq_true, decide_eq_true_eq]
  tauto

/-! ### Claim theorems -/

/-- C7: Validation collects every violated field-level check into one
field-to-message mapping and returns a single FailedValidation outcome whose
content enumerates all violations ordered by field name, giving
deterministic output; it never reports only the first violation.  Formally:
(i) running any sequence of `Check` calls leaves every failed check's field
present in the map (collection never stops at the first violation);
(ii) a non-empty map becomes exactly one `FailedValidation` value rendering
the entries; (iii) its key order is sorted; (iv) the rendered keys are a
permutation of the map's keys, so every violation is enumerated. -/
theorem validation_aggregation (v : Validator) (checks : List (Bool × String × String))
    (es : List (String × String)) (hne : es ≠ []) :
    (∀ c ∈ checks, c.1 = false → (runChecks v checks).hasKey c.2.1 = true) ∧
    failedValidationErr es = some (.failedValidation (renderValidationErrors es)) ∧
    (sortedKeys es).Sorted (· ≤ ·) ∧
    (sortedKeys es).Perm (es.map Prod.fst) := by
  refine ⟨runChecks_collects v checks, ?_, ?_, ?_⟩
  · unfold failedValidationErr
    rw [if_neg]
    simp [List.isEmpty_iff, hne]
  · exact List.sorted_insertionSort _ _
  · exact List.perm_insertionSort _ _

/-- Witness for C7 at a concrete two-violation run: both failed checks land
in the map, the outcome is a single rendered `FailedValidation`, and the keys
come out sorted. -/
theorem validation_aggregation_witness :
    ([("b", "x"), ("a", "y")] : List (String × String)) ≠ [] ∧
    ((∀ c ∈ [(false, "b", "x"), (false, "a", "y")],
        c.1 = false →
        (runChecks Validator.new [(false, "b", "x"), (false, "a", "y")]).hasKey c.2.1 = true) ∧
      failedValidationErr [("b", "x"), ("a", "y")] =
        some (.failedValidation (renderValidationErrors [("b", "x"), ("a", "y")])) ∧
      (sortedKeys [("b", "x"), ("a", "y")]).Sorted (· ≤ ·) ∧
      (sortedKeys [("b", "x"), ("a", "y")]).Perm
        ([("b", "x"), ("a", "y")].map Prod.fst)) :=
  ⟨by decide,
   validation_aggregation Validator.new [(false, "b", "x"), (false, "a", "y")]
     [("b", "x"), ("a", "y")] (by decide)⟩

/-- C6: For every listing result, if totalRecords is 0 the returned metadata
equals the empty zero value, and otherwise the metadata has currentPage =
page, pageSize = pageSize, firstPage = 1, lastPage = ceil(totalRecords /
pageSize), and totalRecords = totalRecords; in particular totalRecords = 95
with pageSize = 20 gives lastPage = 5. -/
theorem metadata_calculation (t p s : Int) (hs : 0 < s) :
    (t = 0 → CalculateMetadata t p s = Metadata.empty) ∧
    (t ≠ 0 →
      (CalculateMetadata t p s).currentPage = p ∧
      (CalculateMetadata t p s).pageSize = s ∧
      (CalculateMetadata t p s).firstPage = 1 ∧
      (CalculateMetadata t p s).totalRecords = t ∧
      (CalculateMetadata t p s).lastPage = ⌈(t : ℚ) / (s : ℚ)⌉) ∧
    (CalculateMetadata 95 p 20).lastPage = 5 := by
  refine ⟨fun h => by simp [CalculateMetadata, h], fun h => ?_, ?_⟩
  · have hne : (t == 0) = false := by simp [h]
    refine ⟨by simp [CalculateMetadata, hne], by simp [CalculateMetadata, hne],
      by simp [CalculateMetadata, hne], by simp [CalculateMetadata, hne], ?_⟩
    simp only [CalculateMetadata, hne, Bool.false_eq_true, if_false]
    have hq := Int.ediv_add_emod (t + s - 1) s
    have hr0 : 0 ≤ (t + s - 1) % s := Int.emod_nonneg _ (ne_of_gt hs)
    have hrlt : (t + s - 1) % s < s := Int.emod_lt_of_pos _ hs
    have hsq : (0 : ℚ) < (s : ℚ) := by exact_mod_cast hs
    symm
    rw [Int.ceil_eq_iff]
    constructor
    · rw [lt_div_iff₀ hsq]
      have : ((t + s - 1) / s - 1) * s < t := by nlinarith
      exact_mod_cast this
    · rw [div_le_iff₀ hsq]
      have : t ≤ ((t + s - 1) / s) * s := by nlinarith
      exact_mod_cast this
  · have h95 : ((95 : Int) == 0) = false := by decide
    simp only [CalculateMetadata, h95, Bool.false_eq_true, if_false]
    decide

/-- Witness for C6 at totalRecords = 95, page = 3, pageSize = 20: the last
page is 5 and equals the rational ceiling. -/
theorem metadata_calculation_witness :
    (0 : Int) < 20 ∧ (CalculateMetadata 95 3 20).lastPage = 5 :=
  ⟨by decide, (metadata_calculation 95 3 20 (by decide)).2.2⟩

/-- C5: For every list request whose filter parameters are invalid — a sort
value outside the resource's safelist, or page/pageSize out of range — the
service returns FailedValidation and never invokes the repository's listing
query; a listing query only ever executes with a safelisted sort column.
Formally, for the projects and issues listing services: when any filter bound
fails, the result is a `FailedValidation` and no query ran (`none`); and any
query that did run carries a safelisted sort key, trimmed to its column
name. -/
theorem listing_validation_gate (tsMatch : String → String → Bool)
    (projects : List Project) (issues : List Issue)
    (name : String) (startDate targetEndDate actualEndDate : Option Int)
    (createdBy : String) (title : String) (reportedDate : Option Int)
    (projectId assignedTo : Int) (status priority : String)
    (filters : Filters) (v : Validator) :
    (¬(0 < filters.page ∧ 0 < filters.pageSize ∧ filters.pageSize ≤ 100 ∧
        filters.sortSafelist.contains filters.sort = true) →
      (∃ msg, (getAllProjectsSvc tsMatch projects name startDate targetEndDate
          actualEndDate createdBy filters v).1 = .err (.failedValidation msg)) ∧
      (getAllProjectsSvc tsMatch projects name startDate targetEndDate
        actualEndDate createdBy filters v).2 = none ∧
      (∃ msg, (getAllIssuesSvc tsMatch issues title reportedDate projectId
          assignedTo status priority filters v).1 = .err (.failedValidation msg)) ∧
      (getAllIssuesSvc tsMatch issues title reportedDate projectId assignedTo
        status priority filters v).2 = none) ∧
    (∀ q, (getAllProjectsSvc tsMatch projects name startDate targetEndDate
        actualEndDate createdBy filters v).2 = some q →
      filters.sortSafelist.contains filters.sort = true ∧
      q.sortColumn = some (trimDash filters.sort)) ∧
    (∀ q, (getAllIssuesSvc tsMatch issues title reportedDate projectId
        assignedTo status priority filters v).2 = some q →
      filters.sortSafelist.contains filters.sort = true ∧
      q.sortColumn = some (trimDash filters.sort)) := by
  by_cases hv : (filters.validate v).valid = true
  · have hbounds := (Filters.valid_validate filters v).mp hv
    have hcol : filters.sortColumn = some (trimDash filters.sort) := by
      unfold Filters.sortColumn
      rw [if_pos hbounds.2.2.2.2]
    refine ⟨fun hbad => absurd ⟨hbounds.2.1, hbounds.2.2.1, hbounds.2.2.2.1,
      hbounds.2.2.2.2⟩ hbad, ?_, ?_⟩
    · intro q hq
      simp only [getAllProjectsSvc, hv, Bool.not_true, Bool.false_eq_true, if_false,
        getAllProjectsRepo, Option.some.injEq] at hq
      exact ⟨hbounds.2.2.2.2, by rw [← hq]; exact hcol⟩
    · intro q hq
      simp only [getAllIssuesSvc, hv, Bool.not_true, Bool.false_eq_true, if_false,
        getAllIssuesRepo, Option.some.injEq] at hq
      exact ⟨hbounds.2.2.2.2, by rw [← hq]; exact hcol⟩
  · have hvf : (filters.validate v).valid = false := by
      cases h : (filters.validate v).valid
      · rfl
      · exact absurd h hv
    refine ⟨fun _ => ?_, ?_, ?_⟩
    · refine ⟨⟨renderValidationErrors (filters.validate v).errors, ?_⟩, ?_,
        ⟨renderValidationErrors (filters.validate v).errors, ?_⟩, ?_⟩ <;>
        simp [getAllProjectsSvc, getAllIssuesSvc, hvf, failedValidationE]
    · intro q hq
      simp [getAllProjectsSvc, hvf] at hq
    · intro q hq
      simp [getAllIssuesSvc, hvf] at hq

/-- A concrete filter set carrying an injection-shaped sort key outside the
safelist. -/
def badSortFilters : Filters :=
  { page := 1, pageSize := 20, sort := "; DROP TABLE", sortSafelist := issuesSortSafelist }

/-- A concrete stand-in for Postgres full-text matching. -/
def sampleTs : String → String → Bool := fun _ _ => false

/-- Witness for C5: with the `"; DROP TABLE"` sort key, both listing services
run no query. -/
theorem listing_validation_gate_witness :
    (getAllProjectsSvc sampleTs [] "" none none none "" badSortFilters Validator.new).2 =
      none ∧
    (getAllIssuesSvc sampleTs [] "" none 0 0 "" "" badSortFilters Validator.new).2 =
      none :=
  ⟨((listing_validation_gate sampleTs [] [] "" none none none "" "" none 0 0 "" ""
      badSortFilters Validator.new).1 (by decide)).2.1,
   ((listing_validation_gate sampleTs [] [] "" none none none "" "" none 0 0 "" ""
      badSortFilters Validator.new).1 (by decide)).2.2.2⟩

/-- Look a project up by id, the way `WHERE id = $1` does on unique ids. -/
def findProjectById (projects : List Project) (id : Int) : Option Project :=
  projects.find? (fun r => r.id == id)

/-- Look a user up by id. -/
def findUserById (users : List User) (id : Int) : Option User :=
  users.find? (fun r => r.id == id)

theorem projectUpdateRow_id (p : Project) (now : Int) (r : Project) :
    (projectUpdateRow p now r).id = r.id := by
  unfold projectUpdateRow
  split <;> rfl

theorem projectUpdateRow_not_target (p : Project) (now : Int) (q : Project)
    (h : q.id ≠ p.id) : projectUpdateRow p now q = q := by
  unfold projectUpdateRow
  rw [if_neg]
  simp [h]

theorem findProjectById_map_other (projects : List Project) (p : Project) (now : Int)
    (id2 : Int) (h : id2 ≠ p.id) :
    findProjectById (projects.map (projectUpdateRow p now)) id2 =
      findProjectById projects id2 := by
  induction projects with
  | nil => rfl
  | cons q t ih =>
      simp only [findProjectById, List.map_cons] at *
      by_cases hq : q.id = id2
      · rw [List.find?_cons_of_pos, List.find?_cons_of_pos]
        · rw [projectUpdateRow_not_target p now q (by rw [hq]; exact h)]
        · simp [hq]
        · simp [projectUpdateRow_id, hq]
      · rw [List.find?_cons_of_neg, List.find?_cons_of_neg]
        · exact ih
        · simp [hq]
        · simp [projectUpdateRow_id, hq]

theorem findProjectById_map_hit (projects : List Project) (p : Project) (now : Int)
    (r : Project) (hfind : findProjectById projects p.id = some r)
    (hver : r.version = p.version) :
    findProjectById (projects.map (projectUpdateRow p now)) p.id =
      some { r with
        name := p.name, description := p.description, assignedTo := p.assignedTo,
        startDate := p.startDate, targetEndDate := p.targetEndDate,
        actualEndDate := p.actualEndDate, modifiedBy := p.modifiedBy,
        modifiedOn := now, version := r.version + 1 } := by
  induction projects with
  | nil => simp [findProjectById] at hfind
  | cons q t ih =>
      simp only [findProjectById, List.map_cons] at *
      by_cases hq : q.id = p.id
      · rw [List.find?_cons_of_pos _ (by simp [hq])] at hfind
        injection hfind with hr
        subst hr
        rw [List.find?_cons_of_pos _ (by simp [projectUpdateRow_id, hq])]
        unfold projectUpdateRow
        rw [if_pos (by simp [hq, hver])]
      · rw [List.find?_cons_of_neg _ (by simp [hq])] at hfind
        rw [List.find?_cons_of_neg _ (by simp [projectUpdateRow_id, hq])]
        exact ih hfind

theorem userUpdateRow_id (u : User) (modifiedBy : String) (r : User) :
    (userUpdateRow u modifiedBy r).id = r.id := by
  unfold userUpdateRow
  split <;> rfl

theorem userUpdateRow_not_target (u : User) (modifiedBy : String) (q : User)
    (h : q.id ≠ u.id) : userUpdateRow u modifiedBy q = q := by
  unfold userUpdateRow
  rw [if_neg]
  simp [h]

theorem findUserById_map_other (users : List User) (u : User) (modifiedBy : String)
    (id2 : Int) (h : id2 ≠ u.id) :
    findUserById (users.map (userUpdateRow u modifiedBy)) id2 =
      findUserById users id2 := by
  induction users with
  | nil => rfl
  | cons q t ih =>
      simp only [findUserById, List.map_cons] at *
      by_cases hq : q.id = id2
      · rw [List.find?_cons_of_pos, List.find?_cons_of_pos]
        · rw [userUpdateRow_not_target u modifiedBy q (by rw [hq]; exact h)]
        · simp [hq]
        · simp [userUpdateRow_id, hq]
      · rw [List.find?_cons_of_neg, List.find?_cons_of_neg]
        · exact ih
        · simp [hq]
        · simp [userUpdateRow_id, hq]

theorem findUserById_map_hit (users : List User) (u : User) (modifiedBy : String)
    (r : User) (hfind : findUserById users u.id = some r)
    (hver : r.version = u.version) :
    findUserById (users.map (userUpdateRow u modifiedBy)) u.id =
      some { r with
        name := u.name, email := u.email, passwordHash := u.passwordHash,
        activated := u.activated, role := u.role, modifiedBy := modifiedBy,
        version := r.version + 1 } := by
  induction users with
  | nil => simp [findUserById] at hfind
  | cons q t ih =>
      simp only [findUserById, List.map_cons] at *
      by_cases hq : q.id = u.id
      · rw [List.find?_cons_of_pos _ (by simp [hq])] at hfind
        injection hfind with hr
        subst hr
        rw [List.find?_cons_of_pos _ (by simp [userUpdateRow_id, hq])]
        unfold userUpdateRow
        rw [if_pos (by simp [hq, hver])]
      · rw [List.find?_cons_of_neg _ (by simp [hq])] at hfind
        rw [List.find?_cons_of_neg _ (by simp [userUpdateRow_id, hq])]
        exact ih hfind

/-- C1: For every entity, a successful repository update increments the
stored version by exactly 1, and an update whose supplied version differs
from the currently stored version, or whose row no longer exists, fails with
EditConflict and leaves the stored entity unchanged; a stale write is never
silently merged or overwritten.  Formally, for the project and user
repositories: when the stored row carries the supplied version, the update
returns the entity at version+1, the stored row is rewritten to the supplied
fields at exactly version+1, and every other id is untouched; when no stored
row matches id and supplied version, the call returns `EditConflict` with the
table exactly as it was. -/
theorem optimistic_update_protocol (projects : List Project) (p : Project) (now : Int)
    (users : List User) (u : User) (modifiedBy : String) :
    (∀ r, findProjectById projects p.id = some r → r.version = p.version →
      (updateProjectRepo projects p now).1 =
        .ok { p with modifiedOn := now, version := p.version + 1 } ∧
      findProjectById (updateProjectRepo projects p now).2 p.id =
        some { r with
          name := p.name, description := p.description, assignedTo := p.assignedTo,
          startDate := p.startDate, targetEndDate := p.targetEndDate,
          actualEndDate := p.actualEndDate, modifiedBy := p.modifiedBy,
          modifiedOn := now, version := r.version + 1 } ∧
      (∀ id2, id2 ≠ p.id →
        findProjectById (updateProjectRepo projects p now).2 id2 =
          findProjectById projects id2)) ∧
    ((¬∃ r ∈ projects, r.id = p.id ∧ r.version = p.version) →
      updateProjectRepo projects p now = (.error .editConflict, projects)) ∧
    (∀ r, findUserById users u.id = some r → r.version = u.version →
      (¬∃ r2 ∈ users, r2.id ≠ u.id ∧ r2.email = u.email) →
      (updateUserRepo users u modifiedBy).1 = .ok { u with version := u.version + 1 } ∧
      findUserById (updateUserRepo users u modifiedBy).2 u.id =
        some { r with
          name := u.name, email := u.email, passwordHash := u.passwordHash,
          activated := u.activated, role := u.role, modifiedBy := modifiedBy,
          version := r.version + 1 } ∧
      (∀ id2, id2 ≠ u.id →
        findUserById (updateUserRepo users u modifiedBy).2 id2 =
          findUserById users id2)) ∧
    ((¬∃ r ∈ users, r.id = u.id ∧ r.version = u.version) →
      updateUserRepo users u modifiedBy = (.error .editConflict, users)) := by
  refine ⟨?_, ?_, ?_, ?_⟩
  · intro r hfind hver
    have hfind2 : projects.find? (fun q => q.id == p.id) = some r := hfind
    have hmem : r ∈ projects := List.mem_of_find?_eq_some hfind2
    have hid := List.find?_some hfind2
    have hany : projects.any (fun q => q.id == p.id && q.version == p.version) = true := by
      rw [List.any_eq_true]
      exact ⟨r, hmem, by simp [hver]; simpa using hid⟩
    unfold updateProjectRepo
    rw [if_pos hany]
    exact ⟨rfl, findProjectById_map_hit projects p now r hfind hver,
      fun id2 h2 => findProjectById_map_other projects p now id2 h2⟩
  · intro hno
    have hany : projects.any (fun q => q.id == p.id && q.version == p.version) = false := by
      rw [List.any_eq_false]
      intro q hq
      simp only [Bool.and_eq_true, beq_iff_eq, not_and]
      intro h1 h2
      exact hno ⟨q, hq, h1, h2⟩
    unfold updateProjectRepo
    rw [if_neg (by simp [hany])]
  · intro r hfind hver hemail
    have hfind2 : users.find? (fun q => q.id == u.id) = some r := hfind
    have hmem : r ∈ users := List.mem_of_find?_eq_some hfind2
    have hid := List.find?_some hfind2
    have hany : users.any (fun q => q.id == u.id && q.version == u.version) = true := by
      rw [List.any_eq_true]
      exact ⟨r, hmem, by simp [hver]; simpa using hid⟩
    have hdup : users.any (fun q => q.id != u.id && q.email == u.email) = false := by
      rw [List.any_eq_false]
      intro q hq
      simp only [bne_iff_ne, Bool.and_eq_true, beq_iff_eq, not_and]
      intro h1 h2
      exact hemail ⟨q, hq, by simpa using h1, h2⟩
    unfold updateUserRepo
    rw [if_pos hany, if_neg (by simp [hdup])]
    exact ⟨rfl, findUserById_map_hit users u modifiedBy r hfind hver,
      fun id2 h2 => findUserById_map_other users u modifiedBy id2 h2⟩
  · intro hno
    have hany : users.any (fun q => q.id == u.id && q.version == u.version) = false := by
      rw [List.any_eq_false]
      intro q hq
      simp only [Bool.and_eq_true, beq_iff_eq, not_and]
      intro h1 h2
      exact hno ⟨q, hq, h1, h2⟩
    unfold updateUserRepo
    rw [if_neg (by simp [hany])]

/-- A stored project row used by the C1 witness. -/
def w1proj : Project :=
  { id := 1, name := "Alpha", description := "First", assignedTo := none
    startDate := 1, targetEndDate := 2, actualEndDate := none
    modifiedBy := "m", version := 3 }

/-- The update payload the C1 witness submits (version read at fetch time). -/
def w1p : Project := { w1proj with name := "Alpha2" }

/-- A stored user row used by the C1 witness. -/
def w1user : User :=
  { id := 7, name := "Ursula", email := "u@example.com", passwordHash := []
    activated := false, role := "lead", version := 5 }

/-- Witness for C1: a matching-version project update returns version 4 from
version 3, and a stale user update (supplied version 2 against stored 5)
yields `EditConflict` with the table unchanged. -/
theorem optimistic_update_protocol_witness :
    (updateProjectRepo [w1proj] w1p 9).1 =
      .ok { w1p with modifiedOn := 9, version := w1p.version + 1 } ∧
    updateUserRepo [w1user] { w1user with version := 2 } "mod" =
      (.error .editConflict, [w1user]) :=
  ⟨((optimistic_update_protocol [w1proj] w1p 9 [w1user] w1user "mod").1 w1proj
      (by decide) (by decide)).1,
   (optimistic_update_protocol [w1proj] w1p 9 [w1user] { w1user with version := 2 }
      "mod").2.2.2 (by decide)⟩

/-- C3: For every project update by an actor with role "lead" who is not the
project's current assignee, and for every issue update by an actor with role
"member" who is neither the issue's assignee nor its reporter, the operation
returns NotPermitted; the check happens before any requested field delta is
applied, so the entity is left unchanged.  Formally: whenever the fetched
entity's assignee exists and differs from the actor (and, for issues, the
actor is not the reporter), the operation returns `NotPermitted` with the
whole state exactly as it was. -/
theorem ownership_guard_not_permitted (st : AppState) (id : Int)
    (name description : Option String) (assignedTo : Option Int)
    (startDate targetEndDate actualEndDate : Option Int)
    (title descriptionI : Option String) (assignedToI : Option Int)
    (status priority : Option String) (targetResolutionDate : Option Int)
    (progress : Option String) (actualResolutionDate : Option Int)
    (resolutionSummary : Option String) (user : User) (now : Int) :
    (∀ project aid, getProjectRepo st.projects id = .ok project →
      user.role = "lead" → project.assignedTo = some aid → aid ≠ user.id →
      updateProject st id name description assignedTo startDate targetEndDate
        actualEndDate user now = (.err .notPermitted, st)) ∧
    (∀ issue aid, getIssueRepo st.issues id = .ok issue →
      user.role = "member" → issue.assignedTo = some aid → aid ≠ user.id →
      issue.reporterId ≠ user.id →
      updateIssue st id title descriptionI assignedToI status priority
        targetResolutionDate progress actualResolutionDate resolutionSummary
        user now = (.err .notPermitted, st)) := by
  constructor
  · intro project aid hget hrole ha hne
    unfold updateProject
    rw [hget]
    simp only [hrole, ha]
    rw [if_pos (by decide)]
    rw [if_pos (by simp [hne])]
  · intro issue aid hget hrole ha hne hrep
    unfold updateIssue
    rw [hget]
    simp only [hrole, ha]
    rw [if_pos (by decide)]
    rw [if_pos (by simp [hne, hrep])]

/-- A project with no assignee, fetched by the C3 witness and crashed into by
the C4 failing input. -/
def unassignedProj : Project :=
  { id := 1, name := "Alpha", description := "First", assignedTo := none
    startDate := 1, targetEndDate := 2, actualEndDate := none, version := 1 }

/-- A project assigned to user 9, for the C3 witness. -/
def assignedProj : Project := { unassignedProj with id := 2, assignedTo := some 9 }

/-- An actor with role lead, id 3. -/
def leadActor : User :=
  { id := 3, name := "Lena", email := "lena@example.com", passwordHash := []
    activated := true, role := "lead", version := 1 }

/-- An actor with role member, id 7. -/
def memberActor : User :=
  { id := 7, name := "Mia", email := "mia@example.com", passwordHash := []
    activated := true, role := "member", version := 1 }

/-- An issue with no assignee whose reporter is user 7. -/
def unassignedIssue : Issue :=
  { id := 1, title := "Crash", description := "It crashes", reporterId := 7
    reportedDate := 1, projectId := 1, assignedTo := none, status := "open"
    priority := "low", targetResolutionDate := 5, progress := ""
    actualResolutionDate := none, resolutionSummary := "", version := 1 }

/-- An issue assigned to user 9, reported by user 8. -/
def assignedIssue : Issue :=
  { unassignedIssue with id := 2, assignedTo := some 9, reporterId := 8 }

/-- State for the C3 witness: one assigned project and one assigned issue. -/
def c3State : AppState :=
  { users := [leadActor, memberActor], projects := [assignedProj]
    issues := [assignedIssue], memberships := [], tokens := [], emails := [] }

/-- Witness for C3: the lead (id 3) updating a project assigned to user 9,
and the member (id 7) updating an issue assigned to 9 and reported by 8,
both get `NotPermitted` with nothing changed. -/
theorem ownership_guard_not_permitted_witness :
    updateProject c3State 2 none none none none none none leadActor 0 =
      (.err .notPermitted, c3State) ∧
    updateIssue c3State 2 none none none none none none none none none
      memberActor 0 = (.err .notPermitted, c3State) :=
  ⟨(ownership_guard_not_permitted c3State 2 none none none none none none none
      none none none none none none none none leadActor 0).1 assignedProj 9
      rfl rfl rfl (by decide),
   (ownership_guard_not_permitted c3State 2 none none none none none none none
      none none none none none none none none memberActor 0).2 assignedIssue 9
      rfl rfl rfl (by decide) (by decide)⟩

/-- State whose only project is unassigned, for the C4 failing input. -/
def c4ProjState : AppState :=
  { users := [leadActor], projects := [unassignedProj], issues := []
    memberships := [], tokens := [], emails := [] }

/-- State whose only issue is unassigned and reported by the member actor. -/
def c4IssState : AppState :=
  { users := [memberActor], projects := [unassignedProj], issues := [unassignedIssue]
    memberships := [], tokens := [], emails := [] }

/-- C4 (refuted by the code): the claim says the ownership guards never
dereference a nil pointer on unassigned entities.  The code dereferences
`*project.AssignedTo` (`*issue.AssignedTo`) whenever the actor's role is
"lead" ("member") without a nil check, so a lead updating an unassigned
project panics, and a member updating an unassigned issue panics — even when
that member is the issue's own reporter, because the dereference precedes
the reporter comparison. -/
theorem nil_assignee_guard_crashes :
    (updateProject c4ProjState 1 none none none none none none leadActor 0).1 =
      .goPanic "runtime error: invalid memory address or nil pointer dereference" ∧
    (updateIssue c4IssState 1 none none none none none none none none none
        memberActor 0).1 =
      .goPanic "runtime error: invalid memory address or nil pointer dereference" := by
  constructor <;> rfl

theorem createProjectRepo_ok_assignedTo (projects : List Project) (p : Project)
    (now freshId : Int) (created : Project) (projects2 : List Project)
    (h : createProjectRepo projects p now freshId = (.ok created, projects2)) :
    created.assignedTo = p.assignedTo := by
  unfold createProjectRepo at h
  split at h
  · simp at h
  · simp only [Prod.mk.injEq, Except.ok.injEq] at h
    rw [← h.1]

theorem createProjectFinish_ok_assignedTo (st : AppState) (proj : Project)
    (eTo : Option User) (now freshId : Int) (res : Project) (st2 : AppState)
    (h : createProjectFinish st proj eTo now freshId = (.ok res, st2)) :
    res.assignedTo = proj.assignedTo := by
  simp only [createProjectFinish] at h
  by_cases hv : (proj.validate Validator.new).valid = true
  · rw [if_neg (by simp [hv])] at h
    rcases hrepo : createProjectRepo st.projects proj now freshId with ⟨exc, projs2⟩
    rw [hrepo] at h
    cases exc with
    | error e => cases e <;> simp at h
    | ok created =>
        have hc := createProjectRepo_ok_assignedTo _ _ _ _ _ _ hrepo
        cases eTo <;>
          · simp only [Prod.mk.injEq, Res.ok.injEq] at h
            rw [← h.1]
            exact hc
  · rw [if_pos (by simp [hv])] at h
    simp at h

theorem updateProjectRepo_ok_assignedTo (projects : List Project) (p : Project)
    (now : Int) (updated : Project) (projects2 : List Project)
    (h : updateProjectRepo projects p now = (.ok updated, projects2)) :
    updated.assignedTo = p.assignedTo := by
  unfold updateProjectRepo at h
  split at h
  · simp only [Prod.mk.injEq, Except.ok.injEq] at h
    rw [← h.1]
  · simp at h

theorem updateProjectApply_manager_assign (st : AppState) (project0 : Project)
    (name description : Option String) (uid : Int)
    (startDate targetEndDate actualEndDate : Option Int) (user : User) (now : Int)
    (res : Project) (st2 : AppState) (hrole : user.role = "manager")
    (h : updateProjectApply st project0 name description (some uid) startDate
      targetEndDate actualEndDate user now = (.ok res, st2)) :
    ∃ cand, getUserByIdRepo st.users uid = .ok cand ∧ cand.role = "lead" ∧
      res.assignedTo = some cand.id := by
  simp only [updateProjectApply] at h
  rw [hrole] at h
  rw [if_pos (by decide)] at h
  cases hget : getUserByIdRepo st.users uid with
  | error e => rw [hget] at h; simp at h
  | ok cand =>
      rw [hget] at h
      dsimp only at h
      by_cases hr : cand.role = "lead"
      · rw [if_neg (by simp [hr])] at h
        refine ⟨cand, rfl, hr, ?_⟩
        split at h
        · simp at h
        · split at h
          · simp at h
          · rename_i p2 emailTo heqP hval
            have hpair := heqP
            simp only [Except.ok.injEq, Prod.mk.injEq] at hpair
            obtain ⟨hP, hE⟩ := hpair
            subst hP
            subst hE
            split at h
            · simp at h
            · rename_i updated2 projs2 heq2
              dsimp only at h
              simp only [Prod.mk.injEq, Res.ok.injEq] at h
              rw [← h.1, updateProjectRepo_ok_assignedTo _ _ _ _ _ heq2]
      · rw [if_pos (by simp [hr])] at h
        simp at h

theorem updateProjectApply_nonmanager_keeps (st : AppState) (project0 : Project)
    (name description : Option String) (assignedTo : Option Int)
    (startDate targetEndDate actualEndDate : Option Int) (user : User) (now : Int)
    (res : Project) (st2 : AppState) (hrole : (user.role == "manager") = false)
    (h : updateProjectApply st project0 name description assignedTo startDate
      targetEndDate actualEndDate user now = (.ok res, st2)) :
    res.assignedTo = project0.assignedTo := by
  simp only [updateProjectApply] at h
  cases assignedTo with
  | none =>
      dsimp only at h
      split at h
      · simp at h
      · split at h
        · simp at h
        · rename_i updated projects2 heq
          simp only [Prod.mk.injEq, Res.ok.injEq] at h
          rw [← h.1, updateProjectRepo_ok_assignedTo _ _ _ _ _ heq]
  | some uid =>
      dsimp only at h
      rw [if_neg (by simp [hrole])] at h
      dsimp only at h
      split at h
      · simp at h
      · split at h
        · simp at h
        · rename_i updated projects2 heq
          simp only [Prod.mk.injEq, Res.ok.injEq] at h
          rw [← h.1, updateProjectRepo_ok_assignedTo _ _ _ _ _ heq]

/-- C2: Assigning a project to a user, on creation or update, succeeds only
when the fetched candidate user's role is "lead": if the candidate user does
not exist the operation returns NotFound, if the role is not "lead" it
returns InvalidRole, and in every failure case no assignment is persisted,
so the project's assignedTo field is unchanged.  Formally, for
`CreateProject` with an assignee and for `UpdateProject` by a manager with
an assignee: a missing candidate gives `NotFound` and a wrong role
`InvalidRole`, each with the whole state untouched; and any success carries
an assignee that was fetched and has role "lead".  A successful update by
any non-manager actor leaves the stored `assignedTo` exactly as fetched, so
no other path ever assigns. -/
theorem project_assignment_eligibility (st : AppState)
    (name description : String) (uid : Int) (startDate targetEndDate : Option Int)
    (createdBy modifiedBy : String) (now freshId : Int) (id : Int)
    (nameU descU : Option String) (sdU tedU aedU : Option Int) (user : User)
    (aToU : Option Int) :
    (getUserByIdRepo st.users uid = .error .notFound →
      createProject st name description (some uid) startDate targetEndDate
        createdBy modifiedBy now freshId = (.err .notFound, st)) ∧
    (∀ cand, getUserByIdRepo st.users uid = .ok cand → cand.role ≠ "lead" →
      createProject st name description (some uid) startDate targetEndDate
        createdBy modifiedBy now freshId = (.err .invalidRole, st)) ∧
    (∀ res st2, createProject st name description (some uid) startDate targetEndDate
        createdBy modifiedBy now freshId = (.ok res, st2) →
      ∃ cand, getUserByIdRepo st.users uid = .ok cand ∧ cand.role = "lead" ∧
        res.assignedTo = some cand.id) ∧
    (user.role = "manager" →
      getUserByIdRepo st.users uid = .error .notFound →
      (∀ project0, getProjectRepo st.projects id = .ok project0 →
        updateProject st id nameU descU (some uid) sdU tedU aedU user now =
          (.err .notFound, st))) ∧
    (user.role = "manager" →
      (∀ cand, getUserByIdRepo st.users uid = .ok cand → cand.role ≠ "lead" →
      (∀ project0, getProjectRepo st.projects id = .ok project0 →
        updateProject st id nameU descU (some uid) sdU tedU aedU user now =
          (.err .invalidRole, st)))) ∧
    (user.role = "manager" →
      (∀ res st2, updateProject st id nameU descU (some uid) sdU tedU aedU user now =
          (.ok res, st2) →
        ∃ cand, getUserByIdRepo st.users uid = .ok cand ∧ cand.role = "lead" ∧
          res.assignedTo = some cand.id)) ∧
    (user.role ≠ "manager" →
      (∀ res st2, updateProject st id nameU descU aToU sdU tedU aedU user now =
          (.ok res, st2) →
        ∀ project0, getProjectRepo st.projects id = .ok project0 →
        res.assignedTo = project0.assignedTo)) := by
  refine ⟨?_, ?_, ?_, ?_, ?_, ?_, ?_⟩
  · intro hget
    unfold createProject
    dsimp only
    rw [hget]
  · intro cand hget hr
    unfold createProject
    dsimp only
    rw [hget]
    dsimp only
    rw [if_pos (by simp [hr])]
  · intro res st2 h
    unfold createProject at h
    dsimp only at h
    cases hget : getUserByIdRepo st.users uid with
    | error e => rw [hget] at h; simp at h
    | ok cand =>
        rw [hget] at h
        dsimp only at h
        by_cases hr : cand.role = "lead"
        · rw [if_neg (by simp [hr])] at h
          have := createProjectFinish_ok_assignedTo _ _ _ _ _ _ _ h
          exact ⟨cand, rfl, hr, by rw [this]⟩
        · rw [if_pos (by simp [hr])] at h
          simp at h
  · intro hrole hget project0 hproj
    unfold updateProject
    rw [hproj]
    dsimp only
    rw [hrole]
    rw [if_neg (by decide)]
    unfold updateProjectApply
    dsimp only
    rw [hrole]
    rw [if_pos (by decide)]
    rw [hget]
  · intro hrole cand hget hr project0 hproj
    unfold updateProject
    rw [hproj]
    dsimp only
    rw [hrole]
    rw [if_neg (by decide)]
    unfold updateProjectApply
    dsimp only
    rw [hrole]
    rw [if_pos (by decide)]
    rw [hget]
    dsimp only
    rw [if_pos (by simp [hr])]
  · intro hrole res st2 h
    unfold updateProject at h
    cases hproj : getProjectRepo st.projects id with
    | error e => rw [hproj] at h; simp at h
    | ok project0 =>
        rw [hproj] at h
        dsimp only at h
        rw [hrole, if_neg (by decide)] at h
        exact updateProjectApply_manager_assign st project0 nameU descU uid sdU tedU
          aedU user now res st2 hrole h
  · intro hrole res st2 h project0 hproj
    have hrole2 : (user.role == "manager") = false := by simp [hrole]
    unfold updateProject at h
    rw [hproj] at h
    dsimp only at h
    by_cases hl : user.role = "lead"
    · rw [hl, if_pos (by decide)] at h
      cases ha : project0.assignedTo with
      | none => rw [ha] at h; simp at h
      | some aid =>
          rw [ha] at h
          dsimp only at h
          by_cases hne : aid = user.id
          · rw [if_neg (by simp [hne])] at h
            rw [← ha]
            exact updateProjectApply_nonmanager_keeps st project0 nameU descU aToU
              sdU tedU aedU user now res st2 hrole2 h
          · rw [if_pos (by simp [hne])] at h
            simp at h
    · rw [if_neg (by simp [hl])] at h
      exact updateProjectApply_nonmanager_keeps st project0 nameU descU aToU
        sdU tedU aedU user now res st2 hrole2 h

/-- State for the C2 witness: a member (id 7) and a lead (id 3), no
projects. -/
def c2State : AppState :=
  { users := [memberActor, leadActor], projects := [], issues := []
    memberships := [], tokens := [], emails := [] }

/-- Witness for C2: creating a project assigned to the unknown user 99 gives
`NotFound`, and assigned to the member (id 7) gives `InvalidRole`; both leave
the state untouched. -/
theorem project_assignment_eligibility_witness :
    createProject c2State "Gamma" "Third project" (some 99) (some 1) (some 2)
      "adm" "adm" 0 1 = (.err .notFound, c2State) ∧
    createProject c2State "Gamma" "Third project" (some 7) (some 1) (some 2)
      "adm" "adm" 0 1 = (.err .invalidRole, c2State) :=
  ⟨(project_assignment_eligibility c2State "Gamma" "Third project" 99 (some 1)
      (some 2) "adm" "adm" 0 1 0 none none none none none memberActor none).1 rfl,
   (project_assignment_eligibility c2State "Gamma" "Third project" 7 (some 1)
      (some 2) "adm" "adm" 0 1 0 none none none none none memberActor none).2.1
      memberActor rfl (by decide)⟩

/-- C9 (refuted by the code): the claim says that when all 3 delivery
attempts fail, the failure is logged only.  In `Mailer.Send` the retry loop
ends with `return nil` — its own comment says "aborting and returning the
final error" — so after three failed dials `Send` reports success; the
`err != nil` branch in `SendEmail` never fires and nothing is logged.  At
the failing input (every dial attempt errors): three attempts are made, the
returned error is `none`, and the log stays empty. -/
theorem mailer_swallows_final_error :
    mailerSendLoop (fun _ => some "dial tcp 127.0.0.1:25: connection refused") =
      (none, 3) ∧
    sendEmailLogs (fun _ => some "dial tcp 127.0.0.1:25: connection refused") =
      [] := by
  constructor <;> rfl

/-- C10: Activating an already-activated user returns AlreadyActivated and
issues no new activation token; for an unactivated user, a fresh activation
token is created and scheduled for delivery.  Formally: an activated user
gets `ErrActivated` with the state (token table included) untouched; an
unactivated user gets exactly one new token row — the SHA-256 hash of the
26-character plaintext, a 3-day expiry, activation scope — and one scheduled
delivery carrying the plaintext. -/
theorem activation_token_reissue_guard (st : AppState) (user : User) (now : Int)
    (randomBytes : List Nat) :
    (user.activated = true →
      createActivationToken st user now randomBytes = (.err .activated, st)) ∧
    (user.activated = false →
      createActivationToken st user now randomBytes =
        (.ok (), { st with
            tokens := st.tokens ++
              [⟨sha256 (base32NoPad randomBytes), user.id, now + 3 * 24 * goHour,
                ScopeActivation⟩]
            emails := st.emails ++
              [⟨user.email, "token_activation.tmpl",
                [("activationToken", bytesToString (base32NoPad randomBytes)),
                 ("name", user.name)]⟩] })) := by
  constructor
  · intro h
    simp [createActivationToken, h]
  · intro h
    simp [createActivationToken, h, createTokenRepo, generateToken, insertToken]

/-- State for the C10 witness. -/
def c10State : AppState :=
  { users := [memberActor], projects := [], issues := [], memberships := []
    tokens := [], emails := [] }

/-- Witness for C10: the already-activated member gets `ErrActivated` and the
state — in particular the token table — is unchanged. -/
theorem activation_token_reissue_guard_witness :
    createActivationToken c10State memberActor 0 (List.replicate 16 0) =
      (.err .activated, c10State) :=
  (activation_token_reissue_guard c10State memberActor 0 (List.replicate 16 0)).1 rfl

theorem flatMap_byteToBits_length (bs : List Nat) :
    (bs.flatMap byteToBits).length = 8 * bs.length := by
  induction bs with
  | nil => rfl
  | cons b t ih =>
      simp only [List.flatMap_cons, List.length_append, ih, List.length_cons]
      have : (byteToBits b).length = 8 := by simp [byteToBits]
      omega

theorem quintets_length : ∀ (n : Nat) (bits : List Bool), bits.length = n →
    (quintets bits).length = (n + 4) / 5 := by
  intro n
  induction n using Nat.strong_induction_on with
  | _ n ih =>
      intro bits hlen
      rw [quintets]
      split
      · next hbit =>
          have hb : bits = [] := List.isEmpty_iff.mp hbit
          subst hb
          simp only [List.length_nil] at hlen
          subst hlen
          rfl
      · next hbit =>
          have hne : bits ≠ [] := by simpa [List.isEmpty_iff] using hbit
          have hpos : 0 < bits.length := List.length_pos.mpr hne
          have hd : (bits.drop 5).length = bits.length - 5 := List.length_drop _ _
          simp only [List.length_cons]
          rw [ih (bits.drop 5).length (by omega) (bits.drop 5) rfl]
          omega

theorem base32NoPad_length (bs : List Nat) (h : bs.length = 16) :
    (base32NoPad bs).length = 26 := by
  unfold base32NoPad
  rw [List.length_map]
  rw [quintets_length (bs.flatMap byteToBits).length _ rfl]
  rw [flatMap_byteToBits_length, h]

theorem sha256_length (msg : List Nat) : (sha256 msg).length = 32 := by
  simp [sha256, toBytesBE]

/-- C8: Every generated activation token's plaintext is the unpadded base32
encoding of 16 random bytes and is therefore exactly 26 characters long;
only the SHA-256 hash of the plaintext is persisted (the hash never equals
the plaintext), together with scope and a 3-day expiry; redemption succeeds
only when hash, scope and expiry > now all match, and any mismatch —
expired, forged, or wrong scope — yields the same single opaque "invalid or
expired token" validation failure.  The persisted row is `now + ttl` for the
supplied ttl, and at the `CreateActivationToken` call site the ttl is
`3*24*time.Hour`, a 3-day expiry. -/
theorem activation_token_protocol (uid ttl : Int) (scope : String) (now : Int)
    (bs : List Nat) (tokens0 : List TokenRow) (users : List User)
    (tokens : List TokenRow) (pt : List Nat) (tnow : Int)
    (stA : AppState) (userA : User) :
    (bs.length = 16 →
      (generateToken uid ttl scope now bs).plaintext = base32NoPad bs ∧
      (generateToken uid ttl scope now bs).plaintext.length = 26 ∧
      (generateToken uid ttl scope now bs).hash ≠
        (generateToken uid ttl scope now bs).plaintext) ∧
    (createTokenRepo tokens0 uid ttl scope now bs =
      (generateToken uid ttl scope now bs,
       tokens0 ++ [⟨sha256 (base32NoPad bs), uid, now + ttl, scope⟩])) ∧
    ((∃ u, getUserForTokenRepo users tokens ScopeActivation pt tnow = .ok u) ↔
      (∃ t ∈ tokens, t.hash = sha256 pt ∧ t.scope = ScopeActivation ∧
        tnow < t.expiry ∧ ∃ u ∈ users, u.id = t.userId)) ∧
    (pt.length = 26 →
      getUserForTokenRepo users tokens ScopeActivation pt tnow = .error .notFound →
      getUserForTokenSvc users tokens pt tnow =
        .err (.failedValidation "token: invalid or expired activation token.")) ∧
    (userA.activated = false →
      (createActivationToken stA userA now bs).2.tokens =
        stA.tokens ++ [⟨sha256 (base32NoPad bs), userA.id, now + 3 * 24 * goHour,
          ScopeActivation⟩]) := by
  refine ⟨?_, ?_, ?_, ?_, ?_⟩
  · intro h16
    refine ⟨rfl, base32NoPad_length bs h16, ?_⟩
    intro heq
    have hlen := congrArg List.length heq
    have hhash : (generateToken uid ttl scope now bs).hash = sha256 (base32NoPad bs) := rfl
    rw [hhash] at hlen
    rw [sha256_length] at hlen
    have hp : (generateToken uid ttl scope now bs).plaintext.length = 26 :=
      base32NoPad_length bs h16
    rw [hp] at hlen
    exact absurd hlen (by decide)
  · rfl
  · constructor
    · rintro ⟨u, hu⟩
      simp only [getUserForTokenRepo] at hu
      cases hm : (tokens.filter (fun t =>
          t.hash == sha256 pt && t.scope == ScopeActivation &&
            decide (tnow < t.expiry))).filterMap
          (fun t => users.find? (fun x => x.id == t.userId)) with
      | nil => rw [hm] at hu; simp at hu
      | cons u0 rest =>
          have hmem : u0 ∈ (tokens.filter (fun t =>
              t.hash == sha256 pt && t.scope == ScopeActivation &&
                decide (tnow < t.expiry))).filterMap
              (fun t => users.find? (fun x => x.id == t.userId)) := by
            rw [hm]
            exact List.mem_cons_self _ _
          obtain ⟨t, htf, hF⟩ := List.mem_filterMap.mp hmem
          obtain ⟨ht1, hcond⟩ := List.mem_filter.mp htf
          simp only [Bool.and_eq_true, beq_iff_eq, decide_eq_true_eq] at hcond
          have humem : u0 ∈ users := List.mem_of_find?_eq_some hF
          have hid := List.find?_some hF
          exact ⟨t, ht1, hcond.1.1, hcond.1.2, hcond.2, u0, humem, by simpa using hid⟩
    · rintro ⟨t, ht, hh, hs, he, u, hu, hid⟩
      have htf : t ∈ tokens.filter (fun t =>
          t.hash == sha256 pt && t.scope == ScopeActivation &&
            decide (tnow < t.expiry)) :=
        List.mem_filter.mpr ⟨ht, by simp [hh, hs, he]⟩
      have hfs : (users.find? (fun x => x.id == t.userId)).isSome := by
        rw [List.find?_isSome]
        exact ⟨u, hu, by simp [hid]⟩
      obtain ⟨u1, hu1⟩ := Option.isSome_iff_exists.mp hfs
      have hmem : u1 ∈ (tokens.filter (fun t =>
          t.hash == sha256 pt && t.scope == ScopeActivation &&
            decide (tnow < t.expiry))).filterMap
          (fun t => users.find? (fun x => x.id == t.userId)) :=
        List.mem_filterMap.mpr ⟨t, htf, hu1⟩
      simp only [getUserForTokenRepo]
      cases hm : (tokens.filter (fun t =>
          t.hash == sha256 pt && t.scope == ScopeActivation &&
            decide (tnow < t.expiry))).filterMap
          (fun t => users.find? (fun x => x.id == t.userId)) with
      | nil => rw [hm] at hmem; simp at hmem
      | cons u0 rest => exact ⟨u0, rfl⟩
  · intro hlen hrepo
    have hne : pt ≠ [] := by
      intro h0
      rw [h0] at hlen
      simp at hlen
    have hval : validateTokenPlaintext Validator.new pt = Validator.new := by
      unfold validateTokenPlaintext
      have h1 : pt.isEmpty = false := by
        simp [List.isEmpty_iff, hne]
      have h2 : (pt.length == 26) = true := by simp [hlen]
      simp [Validator.check, h1, h2]
    simp only [getUserForTokenSvc]
    rw [hval]
    rw [if_neg (by decide)]
    rw [hrepo]
    rfl
  · intro hact
    simp [createActivationToken, hact, createTokenRepo, generateToken, insertToken]

/-- Witness for C8: 16 concrete random bytes yield a 26-character plaintext,
and redeeming a forged 26-character token against an empty token table gives
the single opaque validation failure. -/
theorem activation_token_protocol_witness :
    (List.replicate 16 0 : List Nat).length = 16 ∧
    (generateToken 1 (3 * 24 * goHour) ScopeActivation 0
      (List.replicate 16 0)).plaintext.length = 26 ∧
    getUserForTokenSvc [] [] (List.replicate 26 66) 0 =
      .err (.failedValidation "token: invalid or expired activation token.") :=
  ⟨by decide,
   ((activation_token_protocol 1 (3 * 24 * goHour) ScopeActivation 0
      (List.replicate 16 0) [] [] [] (List.replicate 26 66) 0 c10State
      memberActor).1 (by decide)).2.1,
   (activation_token_protocol 1 (3 * 24 * goHour) ScopeActivation 0
      (List.replicate 16 0) [] [] [] (List.replicate 26 66) 0 c10State
      memberActor).2.2.2.1 (by decide) rfl⟩

end Bugtracker
